import Mathlib

/-!
Verification development for the palo_alto_firewall_analyzer repository.

Shallow embedding of:
  * `pan_api_helpers.load_config_package` (hierarchy resolution, the per-scope
    all/exclusive entry dictionaries, the active-firewall closure);
  * `validators/bad_hostnames.find_badhostname` and `find_badhostnameusage`;
  * `fixers/consolidate_equivalent_objects.consolidate_service_like_objects`
    (remote calls modelled as an explicit event trace);
  * `pan_policy_validator.write_validator_output` (text report rendering).

Python dictionaries are modelled as association lists looked up by first key
occurrence (`dget`); a lookup that would raise `KeyError` is `none`.
External collaborators (the management API, DNS lookups, the parsed XML
document) are parameters, following the interface contract of the spec.
-/

namespace PanAnalyzer

/-- One configuration entry (object or policy rule).  The Python code reads
entries through ElementTree accessors; this structure records exactly the
projections the analyzed code accesses: `entry.get('name')`,
`entry.get('@uuid')`, the text of `fqdn` children, of `./static/member`
children, of the `./disabled` child, and of `./source/member` and
`./destination/member` children. -/
structure Entry where
  name : String
  uuid : Option String
  fqdns : List String
  static_members : List String
  disabled : Option String
  source_members : List String
  destination_members : List String
deriving DecidableEq

/-- Modelled from the spec: `BadEntry` is defined in `core.py`, which is not
among the sources; §3 describes a Finding as an immutable record of offending
entry/entries (`data`), explanation (`text`), owning scope (`device_group`)
and category (`entry_type`), matching every constructor call in the
analyzed validators and fixers. -/
structure BadEntry (α : Type) where
  data : α
  text : String
  device_group : String
  entry_type : String
deriving DecidableEq

/-- Python dict lookup on an association list: first matching key, `none`
models a `KeyError`. -/
def dget {α : Type} : List (String × α) → String → Option α
  | [], _ => none
  | (k, v) :: rest, key => if k = key then some v else dget rest key

/-- Two-level dict lookup `m[dg][cat]`. -/
def dget2 (m : List (String × List (String × List Entry))) (dg cat : String) :
    Option (List Entry) :=
  (dget m dg).bind (fun d => dget d cat)

/-- Python list slicing `xs[:limit]` as used on the policy lists:
`None` keeps everything, a non-negative bound keeps the first `n` entries,
a negative bound drops entries from the end (clamped at zero). -/
def pySlice (limit : Option Int) (xs : List Entry) : List Entry :=
  match limit with
  | none => xs
  | some n => if n < 0 then xs.take (xs.length - n.natAbs) else xs.take n.toNat

/-- Addressing mode used when fetching a scope's entries: the distinguished
shared scope versus a named device group (`'shared'` vs `'device-group', dg`
in the calls to `get_devicegroup_policy` / `get_devicegroup_object`). -/
inductive ScopeAddr where
  | shared : ScopeAddr
  | device_group (name : String) : ScopeAddr

/-- Modelled from the spec: the parsed configuration document (`PanConfig` in
`pan_config.py`, not among the sources).  Per §6 it exposes the scope list,
the parent/child maps, the fixed category enumerations and
`get_entries(category, scope_kind, scope_name)`; per §3/§8 the per-scope
entry lists are inherited-inclusive (a child scope's list repeats the
entries visible from its ancestors, at the same stable identity). -/
structure PanConfig where
  SUPPORTED_POLICY_TYPES : List String
  SUPPORTED_OBJECT_TYPES : List String
  device_groups : List String
  hierarchy_children : List (String × List String)
  hierarchy_parent : List (String × String)
  get_devicegroup_policy : String → ScopeAddr → List Entry
  get_devicegroup_object : String → ScopeAddr → List Entry

/-- `pan_config.get_device_groups() + ['shared']` (line 46). -/
def all_device_groups (cfg : PanConfig) : List String :=
  cfg.device_groups ++ ["shared"]

/-- The policy list fetched for a scope, before the `[:limit]` slice
(lines 70-80: the shared scope uses the `'shared'` addressing mode, named
scopes use `'device-group'`). -/
def policy_raw (cfg : PanConfig) (dg pt : String) : List Entry :=
  if dg = "shared" then cfg.get_devicegroup_policy pt ScopeAddr.shared
  else cfg.get_devicegroup_policy pt (ScopeAddr.device_group dg)

/-- The object list fetched for a scope (lines 74-76 and 81-83; no slice). -/
def object_raw (cfg : PanConfig) (dg ot : String) : List Entry :=
  if dg = "shared" then cfg.get_devicegroup_object ot ScopeAddr.shared
  else cfg.get_devicegroup_object ot (ScopeAddr.device_group dg)

/-- The per-scope category dictionary built by the loops of lines 70-83:
each policy type is fetched and sliced to `limit`, each object type is
fetched in full. -/
def scope_cat_dict (cfg : PanConfig) (limit : Option Int) (dg : String) :
    List (String × List Entry) :=
  cfg.SUPPORTED_POLICY_TYPES.map (fun pt => (pt, pySlice limit (policy_raw cfg dg pt))) ++
  cfg.SUPPORTED_OBJECT_TYPES.map (fun ot => (ot, object_raw cfg dg ot))

/-- `devicegroup_objects` of lines 57-83 (the two bookkeeping keys
`all_child_device_groups` / `all_active_child_firewalls` that Python stores
in the same heterogeneous dict are modelled as the separate results of
`squash_all_devicegroups` and `all_active_firewalls_per_devicegroup`). -/
def devicegroup_objects_of (cfg : PanConfig) (limit : Option Int) :
    List (String × List (String × List Entry)) :=
  (all_device_groups cfg).map (fun dg => (dg, scope_cat_dict cfg limit dg))

/-- `(dget2 ...).getD []`: the list actually traversed by code that indexes
the dictionaries directly. -/
def dictGetAt (m : List (String × List (String × List Entry))) (dg cat : String) :
    List Entry :=
  (dget2 m dg cat).getD []

/-- The exclusive list computed for one scope and one policy type
(lines 92-102): a scope absent from the parent map keeps its full list,
otherwise entries whose `@uuid` occurs among the parent scope's `@uuid`s are
filtered out. -/
def exclusive_val (cfg : PanConfig)
    (objs : List (String × List (String × List Entry))) (dg pt : String) :
    List Entry :=
  match dget cfg.hierarchy_parent dg with
  | none => dictGetAt objs dg pt
  | some parent_dg =>
      (dictGetAt objs dg pt).filter
        (fun e => decide (e.uuid ∉ (dictGetAt objs parent_dg pt).map (fun x => x.uuid)))

/-- The per-scope exclusive dictionary (lines 88-102): built for the policy
types only. -/
def exclusive_for (cfg : PanConfig)
    (objs : List (String × List (String × List Entry))) (dg : String) :
    List (String × List Entry) :=
  cfg.SUPPORTED_POLICY_TYPES.map (fun pt => (pt, exclusive_val cfg objs dg pt))

/-- `devicegroup_exclusive_objects` of lines 88-102. -/
def devicegroup_exclusive_objects_of (cfg : PanConfig) (limit : Option Int) :
    List (String × List (String × List Entry)) :=
  (all_device_groups cfg).map
    (fun dg => (dg, exclusive_for cfg (devicegroup_objects_of cfg limit) dg))

/-- Modelled from the spec: `squash_all_devicegroups` lives in `core.py`,
absent from the sources; per §4.1 `descendant_closure`, each scope's closure
contains the scope itself and every scope reachable through the children
map.  Recursion is bounded by the number of scopes, enough for any acyclic
hierarchy. -/
def descend (children : List (String × List String)) : Nat → String → List String
  | 0, dg => [dg]
  | n + 1, dg => dg :: ((dget children dg).getD []).flatMap (descend children n)

/-- Modelled from the spec: see `descend`. -/
def squash_all_devicegroups (all_dgs : List String)
    (children : List (String × List String)) : List (String × List String) :=
  all_dgs.map (fun dg => (dg, descend children all_dgs.length dg))

/-- Lines 39-41: per device group, the firewalls of that group that are
active (`[fw for fw in firewalls if fw in active_firewalls]`). -/
def active_firewalls_per_devicegroup (dg_and_fws : List (String × List String))
    (active_firewalls : List String) : List (String × List String) :=
  dg_and_fws.map (fun p => (p.1, p.2.filter (fun fw => decide (fw ∈ active_firewalls))))

/-- Lines 50-54: for each scope, concatenate the raw active-firewall lists of
every scope in its descendant closure (`defaultdict`: missing scopes
contribute `[]`). -/
def all_active_firewalls_per_devicegroup
    (closure : List (String × List String))
    (active_per : List (String × List String)) : List (String × List String) :=
  closure.map (fun p => (p.1, p.2.flatMap (fun c => (dget active_per c).getD [])))

/-- The slice of `ProfilePackage` consumed by the analyzed validators:
the scope list, the two entry dictionaries, the lowered ignore list, and the
external `cached_dns_lookup` collaborator (§6 Lookup API) as a function. -/
structure ProfilePackage where
  device_groups : List String
  devicegroup_objects : List (String × List (String × List Entry))
  devicegroup_exclusive_objects : List (String × List (String × List Entry))
  ignored_dns_prefixes : List String
  dns : String → Option String

/-- `load_config_package` (lines 10-122), restricted to the fields the
analyzed validators read: `device_groups` is the single filtered scope or
every scope (lines 59-62), the two dictionaries are built per lines 56-102,
and `Ignored DNS Prefixes` arrives already lowered (line 20). -/
def load_config_package (cfg : PanConfig) (device_group : Option String)
    (limit : Option Int) (ignored : List String) (dns : String → Option String) :
    ProfilePackage :=
  { device_groups :=
      match device_group with
      | some dg => [dg]
      | none => all_device_groups cfg
    devicegroup_objects := devicegroup_objects_of cfg limit
    devicegroup_exclusive_objects := devicegroup_exclusive_objects_of cfg limit
    ignored_dns_prefixes := ignored.map (fun s => s.toLower)
    dns := dns }

/-- `profilepackage.devicegroup_objects[dg][cat]` as read by validators. -/
def objectsAt (pkg : ProfilePackage) (dg cat : String) : List Entry :=
  (dget2 pkg.devicegroup_objects dg cat).getD []

/-- `profilepackage.devicegroup_exclusive_objects[dg][cat]` as read by
validators. -/
def exclusiveAt (pkg : ProfilePackage) (dg cat : String) : List Entry :=
  (dget2 pkg.devicegroup_exclusive_objects dg cat).getD []

/-- The text of a `BadHostname` Finding (bad_hostnames.py line 27). -/
def badHostnameText (dg nm fq : String) : String :=
  "Device Group " ++ dg ++ "'s address '" ++ nm ++
    "' uses the following FQDN which doesn't resolve: '" ++ fq ++ "'"

/-- `find_badhostname` (bad_hostnames.py lines 5-30): for every scope in
`device_groups`, every `Addresses` entry and every of its `fqdn` fields,
lowercase the hostname, skip it when it starts with an ignored prefix
(comparison on lowered strings, line 22), otherwise look it up through the
cached DNS collaborator and, when unresolved, emit one Finding.  The local
`bad_address_objects` set that the Python builds alongside is not part of
the return value; Stage 2 rebuilds it from the returned Findings. -/
def stage1_fqdn_findings (pkg : ProfilePackage) (dg : String) (e : Entry)
    (fq : String) : List (BadEntry Entry) :=
  let lowered := pkg.ignored_dns_prefixes.map (fun s => s.toLower)
  let fqdn_text := fq.toLower
  if lowered.any (fun p => fqdn_text.startsWith p) then []
  else
    match pkg.dns fqdn_text with
    | some _ => []
    | none => [⟨e, badHostnameText dg e.name fqdn_text, dg, "Addresses"⟩]

/-- See `stage1_fqdn_findings` for the loop body (the Python hoists the
lowering of the ignore list out of the loops; recomputing it per field is
the same value). -/
def find_badhostname (pkg : ProfilePackage) : List (BadEntry Entry) :=
  pkg.device_groups.flatMap (fun dg =>
    (objectsAt pkg dg "Addresses").flatMap (fun e =>
      e.fqdns.flatMap (fun fq => stage1_fqdn_findings pkg dg e fq)))

/-- The Boolean "this hostname field makes its entry bad" predicate implied
by the branch structure of `find_badhostname`: not ignored and unresolved. -/
def unresolved_fqdn (pkg : ProfilePackage) (fq : String) : Bool :=
  let lowered := pkg.ignored_dns_prefixes.map (fun s => s.toLower)
  let fqdn_text := fq.toLower
  !(lowered.any (fun p => fqdn_text.startsWith p)) && (pkg.dns fqdn_text).isNone

/-- Lexicographic comparison of character lists by code point, the order
Python's `sorted` uses on strings. -/
def charListLe : List Char → List Char → Bool
  | [], _ => true
  | _ :: _, [] => false
  | a :: as, b :: bs =>
    if a.toNat < b.toNat then true
    else if b.toNat < a.toNat then false
    else charListLe as bs

/-- Python's string order. -/
def strLe (s t : String) : Bool := charListLe s.data t.data

/-- Insertion of a string into a sorted list, for `sorted(...)`. -/
def insSorted (s : String) : List String → List String
  | [] => [s]
  | t :: ts => if strLe s t then s :: t :: ts else t :: insSorted s ts

/-- Python's `sorted` on a list of strings. -/
def sortStrs (l : List String) : List String := l.foldr insSorted []

/-- `sorted(bad_address_objects & set(members))`: the distinct members that
are also bad names, in ascending order. -/
def interSorted (bad members : List String) : List String :=
  sortStrs ((members.filter (fun m => decide (m ∈ bad))).dedup)

/-- Python's `str` of a list of strings, as interpolated into texts. -/
def pyStrList (l : List String) : String :=
  "[" ++ String.intercalate ", " (l.map (fun s => "'" ++ s ++ "'")) ++ "]"

/-- The text of an AddressGroups `BadHostnameUsage` Finding (line 54). -/
def agUsageText (dg nm : String) (bad : List String) : String :=
  "Device Group " ++ dg ++ "'s Address Group '" ++ nm ++
    "' uses the following address objects which don't resolve: " ++ pyStrList bad

/-- The text of a rule `BadHostnameUsage` Finding (line 75). -/
def ruleUsageText (dg rt nm dir : String) (bad : List String) : String :=
  "Device Group " ++ dg ++ "'s " ++ rt ++ " '" ++ nm ++ "' " ++ dir ++
    " contain the following address objects which don't resolve: " ++ pyStrList bad

/-- The two rule categories scanned by Stage 2 (line 59). -/
def ruleTypes : List String := ["SecurityPreRules", "SecurityPostRules"]

/-- The Findings Stage 2 emits for one security rule (lines 63-77):
nothing for an explicitly disabled rule; otherwise one Finding per
member-reference direction whose members intersect the bad-name set,
iterating `[(source_members, 'Source'), (dest_members, 'Dest')]`. -/
def ruleEntryFindings (bad : List String) (dg rt : String) (e : Entry) :
    List (BadEntry Entry) :=
  if e.disabled = some "yes" then []
  else
    (if interSorted bad e.source_members = [] then []
     else [⟨e, ruleUsageText dg rt e.name "Source" (interSorted bad e.source_members), dg, rt⟩]) ++
    (if interSorted bad e.destination_members = [] then []
     else [⟨e, ruleUsageText dg rt e.name "Dest" (interSorted bad e.destination_members), dg, rt⟩])

/-- The bad-address name set Stage 2 derives from Stage 1's Findings
(lines 40-43), as a list of names. -/
def badNames (pkg : ProfilePackage) : List String :=
  (find_badhostname pkg).map (fun f => f.data.name)

/-- The AddressGroups loop of Stage 2 (lines 46-56): scans every scope's
full `AddressGroups` collection from `devicegroup_objects` and emits one
Finding per group whose static members intersect the bad-name set. -/
def ag_part (pkg : ProfilePackage) (bad : List String) : List (BadEntry Entry) :=
  pkg.device_groups.flatMap (fun dg =>
    (objectsAt pkg dg "AddressGroups").flatMap (fun e =>
      if interSorted bad e.static_members = [] then []
      else [⟨e, agUsageText dg e.name (interSorted bad e.static_members), dg,
             "AddressGroups"⟩]))

/-- The security-rule loops of Stage 2 (lines 58-77): scans every scope's
EXCLUSIVE pre- and post-rule collections from
`devicegroup_exclusive_objects`. -/
def rule_part (pkg : ProfilePackage) (bad : List String) : List (BadEntry Entry) :=
  pkg.device_groups.flatMap (fun dg =>
    ruleTypes.flatMap (fun rt =>
      (exclusiveAt pkg dg rt).flatMap (fun e => ruleEntryFindings bad dg rt e)))

/-- `find_badhostnameusage` (bad_hostnames.py lines 33-78): re-runs the
`BadHostname` validator obtained through the registry, collects the bad
names from its Findings, then runs the AddressGroups loop followed by the
security-rule loops. -/
def find_badhostnameusage (pkg : ProfilePackage) : List (BadEntry Entry) :=
  ag_part pkg (badNames pkg) ++ rule_part pkg (badNames pkg)

/-- One remote mutation request issued by a consolidation fixer; the
constant connection arguments (panorama, version, api_key) are omitted,
`payload` is the opaque `object_policy_dict` forwarded verbatim. -/
inductive ApiCall where
  | update_devicegroup_object (payload entry_type dg : String) : ApiCall
  | update_devicegroup_policy (payload entry_type dg : String) : ApiCall
  | validate_commit : ApiCall
deriving DecidableEq

/-- `consolidate_service_like_objects` (consolidate_equivalent_objects.py
lines 4-29), with the paired validator's result passed in evaluated form and
the remote calls returned as an explicit trace alongside the return value:
an empty validator result returns immediately (lines 15-16); otherwise each
Finding whose category is a supported object type is dispatched through the
object-update call, each supported policy type through the policy-update
call, and a category that is neither is passed over without any call or
error (the if/elif of lines 23-26 has no else branch); finally one
validate-commit call is issued (line 27). -/
def consolidate_service_like_objects (object_types policy_types : List String)
    (validator_result : List (BadEntry (Entry × String))) :
    List ApiCall × List (BadEntry (Entry × String)) :=
  if validator_result = [] then ([], validator_result)
  else
    (validator_result.flatMap (fun b =>
      if b.entry_type ∈ object_types then
        [ApiCall.update_devicegroup_object b.data.2 b.entry_type b.device_group]
      else if b.entry_type ∈ policy_types then
        [ApiCall.update_devicegroup_policy b.data.2 b.entry_type b.device_group]
      else []) ++ [ApiCall.validate_commit],
     validator_result)

/-- The line of 80 `#` characters used by the report writer. -/
def hashesLine : String := String.mk (List.replicate 80 '#')

/-- The header line written for one validator: name, description and the
exact count of its Findings (pan_policy_validator.py line 66). -/
def headerLine {α : Type} (item : (String × String) × List (BadEntry α)) : String :=
  item.1.1 ++ ": " ++ item.1.2 ++ " (" ++ toString item.2.length ++ ")"

/-- The successive `fh.write` chunks produced for the whole report
(pan_policy_validator.py lines 61-74), one list element per write call. -/
def reportChunks {α : Type} (problems : List ((String × String) × List (BadEntry α))) :
    List String :=
  problems.flatMap (fun item =>
    [hashesLine ++ "\n", headerLine item ++ "\n", hashesLine ++ "\n"] ++
    item.2.map (fun p => p.text ++ "\n") ++ ["\n"])

/-- `write_validator_output` (lines 54-74): an unsupported format raises
(modelled as `Except.error` with the exact message), the text format writes
the concatenation of `reportChunks`. -/
def write_validator_output {α : Type}
    (problems : List ((String × String) × List (BadEntry α))) (fmt : String) :
    Except String String :=
  if fmt ∉ ["text"] then
    Except.error ("Unsupported output format of " ++ fmt ++
      "! Output format must be one of " ++ pyStrList ["text"])
  else
    Except.ok (String.join (reportChunks problems))

/-- The report as a list of lines, written the way the spec words it: per
validator a header line naming the validator and the count of its Findings
(framed by two `#` ruler lines), then exactly one line of text per Finding,
then a blank separator line. -/
def report_lines {α : Type} (problems : List ((String × String) × List (BadEntry α))) :
    List String :=
  problems.flatMap (fun item =>
    [hashesLine, headerLine item, hashesLine] ++ item.2.map (fun p => p.text) ++ [""])

/-! ### General lemmas about the dict and list combinators -/

theorem dget_map_self {α : Type} (f : String → α) {l : List String} {a : String}
    (h : a ∈ l) : dget (l.map (fun x => (x, f x))) a = some (f a) := by
  induction l with
  | nil => cases h
  | cons b bs ih =>
    simp only [List.map_cons, dget]
    by_cases hb : b = a
    · subst hb; simp
    · rw [if_neg hb]
      rcases List.mem_cons.mp h with h1 | h1
      · exact absurd h1.symm hb
      · exact ih h1

theorem dget_append_left {α : Type} {l₁ : List (String × α)} (l₂ : List (String × α))
    {k : String} {v : α} (h : dget l₁ k = some v) : dget (l₁ ++ l₂) k = some v := by
  induction l₁ with
  | nil => simp [dget] at h
  | cons p rest ih =>
    obtain ⟨a, b⟩ := p
    simp only [List.cons_append, dget] at h ⊢
    by_cases ha : a = k
    · rw [if_pos ha] at h ⊢; exact h
    · rw [if_neg ha] at h ⊢; exact ih h

theorem countP_flatMap {α β : Type} (p : β → Bool) (l : List α) (f : α → List β) :
    (l.flatMap f).countP p = (l.map (fun a => (f a).countP p)).sum := by
  induction l with
  | nil => rfl
  | cons a as ih => simp [List.flatMap_cons, List.countP_append, ih]

theorem filter_flatMap {α β : Type} (p : β → Bool) (l : List α) (f : α → List β) :
    (l.flatMap f).filter p = l.flatMap (fun a => (f a).filter p) := by
  induction l with
  | nil => rfl
  | cons a as ih => simp [List.flatMap_cons, List.filter_append, ih]

theorem map_sum_single {α : Type} [DecidableEq α] (g : α → Nat) {l : List α} {a : α}
    (h : l.countP (fun x => decide (x = a)) = 1) (hz : ∀ x, x ≠ a → g x = 0) :
    (l.map g).sum = g a := by
  induction l with
  | nil => simp at h
  | cons b bs ih =>
    by_cases hb : b = a
    · subst hb
      have h0 : ∀ a ∈ bs, ¬ a = b := by
        have h' := h
        simp [List.countP_cons] at h'
        exact h'
      have hsum : (bs.map g).sum = 0 := by
        apply List.sum_eq_zero
        intro x hx
        rcases List.mem_map.mp hx with ⟨y, hy, rfl⟩
        exact hz y (h0 y hy)
      simp [List.map_cons, List.sum_cons, hsum]
    · have hgb : g b = 0 := hz b hb
      have h' : bs.countP (fun x => decide (x = a)) = 1 := by
        have := h
        simp [List.countP_cons, hb] at this
        exact this
      simp [List.map_cons, List.sum_cons, hgb, ih h']

theorem flatMap_if_const {α β : Type} [DecidableEq α] (l : List α) (R : α) (K : List β) :
    l.flatMap (fun e => if e = R then K else []) =
      (l.filter (fun e => decide (e = R))).flatMap (fun _ => K) := by
  induction l with
  | nil => rfl
  | cons b bs ih =>
    by_cases hb : b = R
    · subst hb; simp [List.flatMap_cons, List.filter_cons, ih]
    · simp [List.flatMap_cons, List.filter_cons, hb, ih]

/-! ### C2: a consolidation fixer does nothing on an empty validator result -/

/-- C2: if the paired equivalence validator returns no Findings, the
consolidation fixer issues no remote call at all (neither update nor
validate-commit) and returns the empty result (consolidate_equivalent_objects.py
lines 15-16). -/
theorem consolidate_noop_on_empty (object_types policy_types : List String)
    (validator_result : List (BadEntry (Entry × String)))
    (h : validator_result = []) :
    (consolidate_service_like_objects object_types policy_types validator_result).1 = [] ∧
    (consolidate_service_like_objects object_types policy_types validator_result).2 = [] := by
  subst h
  simp [consolidate_service_like_objects]

/-- Witness for C2 at a concrete input. -/
theorem consolidate_noop_on_empty_witness :
    ([] : List (BadEntry (Entry × String))) = [] ∧
    ((consolidate_service_like_objects ["Addresses"] ["SecurityPreRules"]
        ([] : List (BadEntry (Entry × String)))).1 = [] ∧
     (consolidate_service_like_objects ["Addresses"] ["SecurityPreRules"]
        ([] : List (BadEntry (Entry × String)))).2 = []) :=
  ⟨rfl, consolidate_noop_on_empty ["Addresses"] ["SecurityPreRules"] [] rfl⟩

/-! ### C3: unsupported category in a consolidation dispatch -/

/-- A configuration entry used in concrete scenarios. -/
def entry0 : Entry := ⟨"n0", none, [], [], none, [], []⟩

/-- A validator result containing one Finding of unsupported category
"Bogus" together with one object-category and one policy-category
Finding. -/
def mixedFindings : List (BadEntry (Entry × String)) :=
  [⟨(entry0, "p1"), "t1", "dg1", "Bogus"⟩,
   ⟨(entry0, "p2"), "t2", "dg1", "Addresses"⟩,
   ⟨(entry0, "p3"), "t3", "dg1", "SecurityPreRules"⟩]

/-- C3 (code_bug evidence): on a Finding whose category is neither a known
object category nor a known policy category, the fixer raises nothing and
issues no call for that Finding — the if/elif of lines 23-26 has no else
branch, so the run silently continues, dispatches the supported Findings and
still issues the final validate-commit call.  The spec requires this case to
fail loudly (§7, taxonomy item 4). -/
theorem consolidate_silently_skips_unknown_category :
    consolidate_service_like_objects ["Addresses"] ["SecurityPreRules"] mixedFindings =
      ([ApiCall.update_devicegroup_object "p2" "Addresses" "dg1",
        ApiCall.update_devicegroup_policy "p3" "SecurityPreRules" "dg1",
        ApiCall.validate_commit], mixedFindings) := by
  decide

theorem dget_map_self_none {α : Type} (f : String → α) {l : List String} {a : String}
    (h : a ∉ l) : dget (l.map (fun x => (x, f x))) a = none := by
  induction l with
  | nil => rfl
  | cons b bs ih =>
    simp only [List.map_cons, dget]
    by_cases hb : b = a
    · exact absurd (List.mem_cons.mpr (Or.inl hb.symm)) h
    · rw [if_neg hb]
      exact ih (fun hm => h (List.mem_cons_of_mem _ hm))

theorem dget_append_right {α : Type} {l₁ : List (String × α)} (l₂ : List (String × α))
    {k : String} (h : dget l₁ k = none) : dget (l₁ ++ l₂) k = dget l₂ k := by
  induction l₁ with
  | nil => rfl
  | cons p rest ih =>
    obtain ⟨a, b⟩ := p
    simp only [List.cons_append, dget] at h ⊢
    by_cases ha : a = k
    · rw [if_pos ha] at h; cases h
    · rw [if_neg ha] at h ⊢; exact ih h

theorem dget_map_val {α β : Type} (F : α → β) :
    ∀ {l : List (String × α)} {k : String} {v : α}, dget l k = some v →
      dget (l.map (fun p => (p.1, F p.2))) k = some (F v) := by
  intro l
  induction l with
  | nil => intro k v h; simp [dget] at h
  | cons p rest ih =>
    intro k v h
    obtain ⟨a, b⟩ := p
    simp only [dget, List.map_cons] at h ⊢
    by_cases ha : a = k
    · rw [if_pos ha] at h ⊢
      cases h
      rfl
    · rw [if_neg ha] at h ⊢
      exact ih h

/-! ### Lookups into the snapshot dictionaries -/

theorem objects_lookup_policy (cfg : PanConfig) (limit : Option Int) {dg pt : String}
    (hdg : dg ∈ all_device_groups cfg) (hpt : pt ∈ cfg.SUPPORTED_POLICY_TYPES) :
    dget2 (devicegroup_objects_of cfg limit) dg pt =
      some (pySlice limit (policy_raw cfg dg pt)) := by
  have houter := dget_map_self (scope_cat_dict cfg limit) hdg
  have hinner : dget (scope_cat_dict cfg limit dg) pt =
      some (pySlice limit (policy_raw cfg dg pt)) := by
    unfold scope_cat_dict
    exact dget_append_left _
      (dget_map_self (fun q => pySlice limit (policy_raw cfg dg q)) hpt)
  unfold dget2 devicegroup_objects_of
  rw [houter, Option.some_bind, hinner]

theorem objects_lookup_object (cfg : PanConfig) (limit : Option Int) {dg ot : String}
    (hdg : dg ∈ all_device_groups cfg) (hot : ot ∈ cfg.SUPPORTED_OBJECT_TYPES)
    (hno : ot ∉ cfg.SUPPORTED_POLICY_TYPES) :
    dget2 (devicegroup_objects_of cfg limit) dg ot = some (object_raw cfg dg ot) := by
  have houter := dget_map_self (scope_cat_dict cfg limit) hdg
  have hinner : dget (scope_cat_dict cfg limit dg) ot = some (object_raw cfg dg ot) := by
    unfold scope_cat_dict
    rw [dget_append_right _
      (dget_map_self_none (fun q => pySlice limit (policy_raw cfg dg q)) hno)]
    exact dget_map_self (fun q => object_raw cfg dg q) hot
  unfold dget2 devicegroup_objects_of
  rw [houter, Option.some_bind, hinner]

theorem exclusive_lookup (cfg : PanConfig) (limit : Option Int) {dg pt : String}
    (hdg : dg ∈ all_device_groups cfg) (hpt : pt ∈ cfg.SUPPORTED_POLICY_TYPES) :
    dget2 (devicegroup_exclusive_objects_of cfg limit) dg pt =
      some (exclusive_val cfg (devicegroup_objects_of cfg limit) dg pt) := by
  have houter := dget_map_self (exclusive_for cfg (devicegroup_objects_of cfg limit)) hdg
  have hinner := dget_map_self
    (exclusive_val cfg (devicegroup_objects_of cfg limit) dg) hpt
  unfold dget2 devicegroup_exclusive_objects_of
  rw [houter, Option.some_bind]
  unfold exclusive_for
  exact hinner

/-! ### C1: exclusive versus all entries -/

/-- A minimal concrete configuration document: one policy category, one
object category, no named device groups (so `shared` is the only scope). -/
def cfg1 : PanConfig :=
  { SUPPORTED_POLICY_TYPES := ["SecurityPreRules"]
    SUPPORTED_OBJECT_TYPES := ["Addresses"]
    device_groups := []
    hierarchy_children := []
    hierarchy_parent := []
    get_devicegroup_policy := fun _ _ => []
    get_devicegroup_object := fun _ _ => [] }

/-- C1 counterexample: the snapshot of `cfg1` has no
`exclusive_entries[scope][category]` at all for the declared object category
`Addresses` — lines 88-102 build the exclusive dictionaries over
`SUPPORTED_POLICY_TYPES` only — so the claimed subset relation, quantified
over object categories and policy categories alike, fails for the scope
`shared` of this snapshot. -/
theorem c1_counterexample :
    ¬ (∀ cat ∈ cfg1.SUPPORTED_OBJECT_TYPES ++ cfg1.SUPPORTED_POLICY_TYPES,
        (dget2 (load_config_package cfg1 none none [] (fun _ => none)).devicegroup_exclusive_objects
          "shared" cat).isSome = true ∧
        ∀ e ∈ (dget2 (load_config_package cfg1 none none [] (fun _ => none)).devicegroup_exclusive_objects
                "shared" cat).getD [],
          e ∈ (dget2 (load_config_package cfg1 none none [] (fun _ => none)).devicegroup_objects
                "shared" cat).getD []) := by
  decide

/-- C1 as amended: for every scope of the snapshot and every declared POLICY
category, the exclusive collection exists, is a subset of the all-entries
collection, and for a scope with no parent in the hierarchy-parent map the
two are equal; object categories have no exclusive collection. -/
theorem exclusive_subset_all (cfg : PanConfig) (limit : Option Int) (dg pt : String)
    (hdg : dg ∈ all_device_groups cfg) (hpt : pt ∈ cfg.SUPPORTED_POLICY_TYPES) :
    ∃ exc alle,
      dget2 (devicegroup_exclusive_objects_of cfg limit) dg pt = some exc ∧
      dget2 (devicegroup_objects_of cfg limit) dg pt = some alle ∧
      (∀ e ∈ exc, e ∈ alle) ∧
      (dget cfg.hierarchy_parent dg = none → exc = alle) := by
  have hobj := objects_lookup_policy cfg limit hdg hpt
  have hexc := exclusive_lookup cfg limit hdg hpt
  refine ⟨exclusive_val cfg (devicegroup_objects_of cfg limit) dg pt,
          pySlice limit (policy_raw cfg dg pt), hexc, hobj, ?_, ?_⟩
  · intro e he
    cases hpar : dget cfg.hierarchy_parent dg with
    | none =>
        rw [exclusive_val, hpar] at he
        rw [dictGetAt, hobj] at he
        simpa using he
    | some p =>
        rw [exclusive_val, hpar] at he
        have hmem := (List.mem_filter.mp he).1
        rw [dictGetAt, hobj] at hmem
        simpa using hmem
  · intro hpar
    rw [exclusive_val, hpar, dictGetAt, hobj]
    rfl

/-- Witness for the amended C1 at the concrete configuration `cfg1`. -/
theorem exclusive_subset_all_witness :
    ("shared" ∈ all_device_groups cfg1 ∧
      "SecurityPreRules" ∈ cfg1.SUPPORTED_POLICY_TYPES) ∧
    (∃ exc alle,
      dget2 (devicegroup_exclusive_objects_of cfg1 none) "shared" "SecurityPreRules" = some exc ∧
      dget2 (devicegroup_objects_of cfg1 none) "shared" "SecurityPreRules" = some alle ∧
      (∀ e ∈ exc, e ∈ alle) ∧
      (dget cfg1.hierarchy_parent "shared" = none → exc = alle)) :=
  ⟨by decide, exclusive_subset_all cfg1 none "shared" "SecurityPreRules" (by decide) (by decide)⟩

/-! ### C8: the processing limit truncates only policy categories -/

/-- C8: building the snapshot with numeric limit `n ≥ 0` keeps the first `n`
entries of every policy-category collection of every scope, while every
object-category collection is materialized in full; with no limit the policy
collections are not truncated either (lines 70-84: the `[:limit]` slice is
applied to `get_devicegroup_policy` results only). -/
theorem limit_truncates_only_policies (cfg : PanConfig) (n : Int) (dg pt ot : String)
    (hn : 0 ≤ n) (hdg : dg ∈ all_device_groups cfg)
    (hpt : pt ∈ cfg.SUPPORTED_POLICY_TYPES)
    (hot : ot ∈ cfg.SUPPORTED_OBJECT_TYPES) (hno : ot ∉ cfg.SUPPORTED_POLICY_TYPES) :
    dget2 (devicegroup_objects_of cfg (some n)) dg pt =
      some ((policy_raw cfg dg pt).take n.toNat) ∧
    dget2 (devicegroup_objects_of cfg (some n)) dg ot = some (object_raw cfg dg ot) ∧
    dget2 (devicegroup_objects_of cfg none) dg pt = some (policy_raw cfg dg pt) := by
  refine ⟨?_, objects_lookup_object cfg (some n) hdg hot hno, ?_⟩
  · rw [objects_lookup_policy cfg (some n) hdg hpt]
    simp [pySlice, not_lt.mpr hn]
  · rw [objects_lookup_policy cfg none hdg hpt]
    rfl

/-- A parent-scope entry with identity `u1`. -/
def entryP : Entry := ⟨"x", some "u1", [], [], none, [], []⟩

/-- A child-scope entry structurally identical to `entryP` (same display
name `x`, same fields) but with the distinct identity `u2`. -/
def entryA : Entry := ⟨"x", some "u2", [], [], none, [], []⟩

/-- A concrete document with scope `A` child of scope `P`; `A`'s
inherited-inclusive policy list repeats `P`'s entry (same uuid) and adds its
own `entryA`. -/
def cfg7 : PanConfig :=
  { SUPPORTED_POLICY_TYPES := ["SecurityPreRules"]
    SUPPORTED_OBJECT_TYPES := ["Addresses"]
    device_groups := ["P", "A"]
    hierarchy_children := [("P", ["A"])]
    hierarchy_parent := [("A", "P")]
    get_devicegroup_policy := fun _ sc =>
      match sc with
      | ScopeAddr.device_group "P" => [entryP]
      | ScopeAddr.device_group "A" => [entryP, entryA]
      | _ => []
    get_devicegroup_object := fun _ _ => [] }

/-- Witness scenario for C8: two policy entries, one object entry. -/
def cfg8 : PanConfig :=
  { SUPPORTED_POLICY_TYPES := ["SecurityPreRules"]
    SUPPORTED_OBJECT_TYPES := ["Addresses"]
    device_groups := ["A"]
    hierarchy_children := []
    hierarchy_parent := []
    get_devicegroup_policy := fun _ _ => [entryP, entryA]
    get_devicegroup_object := fun _ _ => [entry0] }

/-- Witness for C8 at `cfg8` with limit 1. -/
theorem limit_truncates_only_policies_witness :
    ((0 : Int) ≤ 1 ∧ "A" ∈ all_device_groups cfg8 ∧
      "SecurityPreRules" ∈ cfg8.SUPPORTED_POLICY_TYPES ∧
      "Addresses" ∈ cfg8.SUPPORTED_OBJECT_TYPES ∧
      "Addresses" ∉ cfg8.SUPPORTED_POLICY_TYPES) ∧
    (dget2 (devicegroup_objects_of cfg8 (some 1)) "A" "SecurityPreRules" =
      some ((policy_raw cfg8 "A" "SecurityPreRules").take (Int.toNat 1)) ∧
    dget2 (devicegroup_objects_of cfg8 (some 1)) "A" "Addresses" =
      some (object_raw cfg8 "A" "Addresses") ∧
    dget2 (devicegroup_objects_of cfg8 none) "A" "SecurityPreRules" =
      some (policy_raw cfg8 "A" "SecurityPreRules")) :=
  ⟨by refine ⟨by decide, ?_, by decide, by decide, by decide⟩; decide,
   limit_truncates_only_policies cfg8 1 "A" "SecurityPreRules" "Addresses"
     (by decide) (by decide) (by decide) (by decide) (by decide)⟩

/-! ### C7: the exclusive diff is by stable identity -/

/-- C7: for a scope with a parent and a policy category, an entry of the
scope's all-entries list is in the scope's exclusive list exactly when its
`@uuid` does not occur among the `@uuid`s of the parent scope's all-entries
list for that category (lines 97-102) — name and content play no role, so a
child entry structurally identical to a parent entry but with a different
identity stays exclusive (see the witness, where such an entry remains). -/
theorem exclusive_diff_by_uuid (cfg : PanConfig) (limit : Option Int)
    (dg pt parent_dg : String) (e : Entry)
    (hdg : dg ∈ all_device_groups cfg) (hpt : pt ∈ cfg.SUPPORTED_POLICY_TYPES)
    (hpar : dget cfg.hierarchy_parent dg = some parent_dg)
    (he : e ∈ dictGetAt (devicegroup_objects_of cfg limit) dg pt) :
    e ∈ dictGetAt (devicegroup_exclusive_objects_of cfg limit) dg pt ↔
      e.uuid ∉ (dictGetAt (devicegroup_objects_of cfg limit) parent_dg pt).map
        (fun x => x.uuid) := by
  have hexc := exclusive_lookup cfg limit hdg hpt
  rw [dictGetAt, hexc, Option.getD_some, exclusive_val, hpar]
  simp [List.mem_filter, he]

/-- Witness for C7: in `cfg7`'s snapshot, `entryA` (same name and content as
the parent's `entryP`, different uuid) is exclusive to scope `A`. -/
theorem exclusive_diff_by_uuid_witness :
    ("A" ∈ all_device_groups cfg7 ∧
      "SecurityPreRules" ∈ cfg7.SUPPORTED_POLICY_TYPES ∧
      dget cfg7.hierarchy_parent "A" = some "P" ∧
      entryA ∈ dictGetAt (devicegroup_objects_of cfg7 none) "A" "SecurityPreRules") ∧
    (entryA ∈ dictGetAt (devicegroup_exclusive_objects_of cfg7 none) "A" "SecurityPreRules" ↔
      entryA.uuid ∉ (dictGetAt (devicegroup_objects_of cfg7 none) "P" "SecurityPreRules").map
        (fun x => x.uuid)) :=
  ⟨by refine ⟨?_, by decide, by decide, by decide⟩; decide,
   exclusive_diff_by_uuid cfg7 none "A" "SecurityPreRules" "P" entryA
     (by decide) (by decide) (by decide) (by decide)⟩

/-! ### C6: the active-leaf closure is a plain concatenation -/

/-- The descendant closure of a three-scope hierarchy where `A` has the two
children `B` and `C`. -/
def closure6 : List (String × List String) :=
  squash_all_devicegroups ["A", "B", "C"] [("A", ["B", "C"])]

/-- Per-scope active firewalls where the same active firewall `f1` belongs
to both of `A`'s children. -/
def raw6 : List (String × List String) :=
  active_firewalls_per_devicegroup [("B", ["f1"]), ("C", ["f1"])] ["f1"]

/-- C6 counterexample: in this snapshot the active-leaf data of scope `A` is
`[f1, f1]` — the leaf `f1` appears twice, so the computed list is not the
de-duplicated union the claim describes (lines 50-54 concatenate the raw
lists without de-duplication). -/
theorem c6_counterexample :
    (dget (all_active_firewalls_per_devicegroup closure6 raw6) "A").getD [] =
      ["f1", "f1"] ∧
    ¬ ((dget (all_active_firewalls_per_devicegroup closure6 raw6) "A").getD []).Nodup := by
  decide

/-- C6 as amended: for every scope present in the descendant-closure map,
the snapshot's active-leaf data is the concatenation (union with
multiplicity, duplicates preserved) of the raw active-leaf lists of the
scopes in its closure; as a set it equals their union. -/
theorem active_leaves_union (closure active_per : List (String × List String))
    (dg : String) (kids : List String) (h : dget closure dg = some kids) :
    dget (all_active_firewalls_per_devicegroup closure active_per) dg =
      some (kids.flatMap (fun c => (dget active_per c).getD [])) ∧
    ∀ fw, fw ∈ kids.flatMap (fun c => (dget active_per c).getD []) ↔
      ∃ c ∈ kids, fw ∈ (dget active_per c).getD [] := by
  constructor
  · exact dget_map_val (fun kids => kids.flatMap (fun c => (dget active_per c).getD [])) h
  · intro fw
    exact List.mem_flatMap

/-- Witness for the amended C6 at the concrete closure of `closure6`. -/
theorem active_leaves_union_witness :
    (dget closure6 "A" = some ["A", "B", "C"]) ∧
    (dget (all_active_firewalls_per_devicegroup closure6 raw6) "A" =
      some ((["A", "B", "C"] : List String).flatMap (fun c => (dget raw6 c).getD [])) ∧
    ∀ fw, fw ∈ (["A", "B", "C"] : List String).flatMap (fun c => (dget raw6 c).getD []) ↔
      ∃ c ∈ (["A", "B", "C"] : List String), fw ∈ (dget raw6 c).getD []) :=
  ⟨by decide, active_leaves_union closure6 raw6 "A" ["A", "B", "C"] (by decide)⟩

/-! ### C5: Stage 1 of the hostname validator -/

theorem stage1_fqdn_findings_eq (pkg : ProfilePackage) (dg : String) (e : Entry)
    (fq : String) :
    stage1_fqdn_findings pkg dg e fq =
      if unresolved_fqdn pkg fq then
        [⟨e, badHostnameText dg e.name fq.toLower, dg, "Addresses"⟩]
      else [] := by
  unfold stage1_fqdn_findings unresolved_fqdn
  by_cases hig : (pkg.ignored_dns_prefixes.map (fun s => s.toLower)).any
      (fun p => fq.toLower.startsWith p)
  · simp [hig]
  · cases hdns : pkg.dns fq.toLower with
    | none => simp [hig, hdns]
    | some ip => simp [hig, hdns]

theorem mem_stage1_fqdn {pkg : ProfilePackage} {dg : String} {e : Entry}
    {fq : String} {f : BadEntry Entry} (h : f ∈ stage1_fqdn_findings pkg dg e fq) :
    f.device_group = dg ∧ f.data = e := by
  rw [stage1_fqdn_findings_eq] at h
  by_cases hc : unresolved_fqdn pkg fq
  · rw [if_pos hc] at h
    rw [List.mem_singleton.mp h]
    exact ⟨rfl, rfl⟩
  · rw [if_neg hc] at h
    cases h

theorem sum_ite_eq_countP {α : Type} (c : α → Bool) (l : List α) :
    (l.map (fun x => if c x then 1 else 0)).sum = l.countP c := by
  induction l with
  | nil => rfl
  | cons a as ih => simp [List.countP_cons, ih, Nat.add_comm]

/-- The single `Addresses` entry of the C5 scenario: two hostname fields,
neither ignored, neither resolving. -/
def e5 : Entry := ⟨"x", none, ["a.example", "b.example"], [], none, [], []⟩

/-- The C5 scenario: one scope, one address entry with two unresolved
hostname fields, nothing ignored, DNS resolving nothing. -/
def pkg5 : ProfilePackage :=
  { device_groups := ["dg1"]
    devicegroup_objects := [("dg1", [("Addresses", [e5])])]
    devicegroup_exclusive_objects := []
    ignored_dns_prefixes := []
    dns := fun _ => none }

/-- C5 counterexample: the scenario has exactly one offending scope/entry
pair — scope `dg1`, entry `x` — yet Stage 1 emits two Findings for it (the
append at bad_hostnames.py line 28 sits inside the per-`fqdn` loop), so
"exactly one Finding per offending scope/entry pair" is false. -/
theorem c5_counterexample :
    ¬ ((find_badhostname pkg5).countP
        (fun f => decide (f.device_group = "dg1" ∧ f.data.name = "x")) = 1) ∧
    (find_badhostname pkg5).countP
        (fun f => decide (f.device_group = "dg1" ∧ f.data.name = "x")) = 2 := by
  decide

/-- C5 as amended: for a scope occurring once in the snapshot's scope list
and an address entry occurring once in that scope's `Addresses` collection,
Stage 1 emits one Finding per non-ignored hostname field of the entry that
fails to resolve (so `k` unresolved fields yield `k` Findings, and the
entry is recorded — by its name — in the bad set exactly when `k > 0`). -/
theorem one_finding_per_unresolved_hostname (pkg : ProfilePackage) (dg : String)
    (e : Entry)
    (h1 : pkg.device_groups.countP (fun x => decide (x = dg)) = 1)
    (h2 : (objectsAt pkg dg "Addresses").countP (fun x => decide (x = e)) = 1) :
    (find_badhostname pkg).countP
        (fun f => decide (f.device_group = dg ∧ f.data = e)) =
      e.fqdns.countP (fun fq => unresolved_fqdn pkg fq) := by
  unfold find_badhostname
  rw [countP_flatMap]
  rw [map_sum_single (fun dg' => ((objectsAt pkg dg' "Addresses").flatMap (fun e' =>
        e'.fqdns.flatMap (fun fq => stage1_fqdn_findings pkg dg' e' fq))).countP
        (fun f => decide (f.device_group = dg ∧ f.data = e))) h1 ?hza]
  case hza =>
    intro dg' hne
    rw [List.countP_eq_zero]
    intro f hf
    rcases List.mem_flatMap.mp hf with ⟨e', _, hf2⟩
    rcases List.mem_flatMap.mp hf2 with ⟨fq, _, hf3⟩
    have hdg := (mem_stage1_fqdn hf3).1
    simp [hdg, hne]
  rw [countP_flatMap]
  rw [map_sum_single (fun e' => (e'.fqdns.flatMap (fun fq =>
        stage1_fqdn_findings pkg dg e' fq)).countP
        (fun f => decide (f.device_group = dg ∧ f.data = e))) h2 ?hzb]
  case hzb =>
    intro e' hne
    rw [List.countP_eq_zero]
    intro f hf
    rcases List.mem_flatMap.mp hf with ⟨fq, _, hf2⟩
    have hdata := (mem_stage1_fqdn hf2).2
    simp [hdata, hne]
  rw [countP_flatMap]
  rw [List.map_congr_left (g := fun fq => if unresolved_fqdn pkg fq then 1 else 0) ?hper]
  case hper =>
    intro fq _
    rw [stage1_fqdn_findings_eq]
    by_cases hc : unresolved_fqdn pkg fq
    · simp [hc, List.countP_cons]
    · simp [hc]
  exact sum_ite_eq_countP (fun fq => unresolved_fqdn pkg fq) e.fqdns

/-- Witness for the amended C5 at the concrete scenario `pkg5`. -/
theorem one_finding_per_unresolved_hostname_witness :
    (pkg5.device_groups.countP (fun x => decide (x = "dg1")) = 1 ∧
      (objectsAt pkg5 "dg1" "Addresses").countP (fun x => decide (x = e5)) = 1) ∧
    (find_badhostname pkg5).countP
        (fun f => decide (f.device_group = "dg1" ∧ f.data = e5)) =
      e5.fqdns.countP (fun fq => unresolved_fqdn pkg5 fq) :=
  ⟨by decide, one_finding_per_unresolved_hostname pkg5 "dg1" e5 (by decide) (by decide)⟩

/-! ### C4: disabled policies are never the subject of Stage 2 rule Findings -/

theorem mem_ruleEntryFindings {bad : List String} {dg rt : String} {e : Entry}
    {f : BadEntry Entry} (h : f ∈ ruleEntryFindings bad dg rt e) :
    f.data = e ∧ f.entry_type = rt ∧ f.device_group = dg ∧
      ¬ e.disabled = some "yes" := by
  unfold ruleEntryFindings at h
  by_cases hdis : e.disabled = some "yes"
  · rw [if_pos hdis] at h
    cases h
  · rw [if_neg hdis] at h
    rcases List.mem_append.mp h with h1 | h1
    · by_cases hs : interSorted bad e.source_members = []
      · rw [if_pos hs] at h1; cases h1
      · rw [if_neg hs] at h1
        rw [List.mem_singleton.mp h1]
        exact ⟨rfl, rfl, rfl, hdis⟩
    · by_cases hs : interSorted bad e.destination_members = []
      · rw [if_pos hs] at h1; cases h1
      · rw [if_neg hs] at h1
        rw [List.mem_singleton.mp h1]
        exact ⟨rfl, rfl, rfl, hdis⟩

theorem mem_ag_part {pkg : ProfilePackage} {bad : List String} {f : BadEntry Entry}
    (h : f ∈ ag_part pkg bad) :
    f.entry_type = "AddressGroups" ∧
      ∃ dg ∈ pkg.device_groups, f.data ∈ objectsAt pkg dg "AddressGroups" := by
  unfold ag_part at h
  rcases List.mem_flatMap.mp h with ⟨dg, hdg, h2⟩
  rcases List.mem_flatMap.mp h2 with ⟨e, he, h3⟩
  by_cases hc : interSorted bad e.static_members = []
  · rw [if_pos hc] at h3; cases h3
  · rw [if_neg hc] at h3
    rw [List.mem_singleton.mp h3]
    exact ⟨rfl, dg, hdg, he⟩

/-- C4: a policy entry explicitly flagged disabled (a `disabled` child with
text `yes`) is never the subject of a Stage 2 rule Finding, whatever its
source or destination members reference (the `continue` of
bad_hostnames.py lines 64-66). -/
theorem disabled_policy_never_flagged (pkg : ProfilePackage) (f : BadEntry Entry)
    (hf : f ∈ find_badhostnameusage pkg)
    (hrt : f.entry_type = "SecurityPreRules" ∨ f.entry_type = "SecurityPostRules") :
    ¬ f.data.disabled = some "yes" := by
  unfold find_badhostnameusage at hf
  rcases List.mem_append.mp hf with h | h
  · have hag := (mem_ag_part h).1
    rcases hrt with h1 | h1 <;> rw [hag] at h1 <;> exact absurd h1 (by decide)
  · unfold rule_part at h
    rcases List.mem_flatMap.mp h with ⟨dg, _, h2⟩
    rcases List.mem_flatMap.mp h2 with ⟨rt, _, h3⟩
    rcases List.mem_flatMap.mp h3 with ⟨e, _, h4⟩
    obtain ⟨hdata, _, _, hdis⟩ := mem_ruleEntryFindings h4
    rw [hdata]
    exact hdis

/-- An address entry whose single hostname does not resolve. -/
def addrBad : Entry := ⟨"bad.example", none, ["bad.example.com"], [], none, [], []⟩

/-- An enabled rule whose source references the bad address. -/
def rule1 : Entry := ⟨"rule1", some "u1", [], [], none, ["bad.example"], []⟩

/-- A disabled rule whose source and destination reference the bad
address. -/
def rule2 : Entry := ⟨"rule2", some "u2", [], [], some "yes", ["bad.example"], ["bad.example"]⟩

/-- The C4/C10 scenario: one scope, one unresolvable address, one enabled
and one disabled rule referencing it in the scope's exclusive pre-rules. -/
def pkg4 : ProfilePackage :=
  { device_groups := ["dg1"]
    devicegroup_objects := [("dg1", [("Addresses", [addrBad]), ("AddressGroups", [])])]
    devicegroup_exclusive_objects := [("dg1",
      [("SecurityPreRules", [rule1, rule2]), ("SecurityPostRules", [])])]
    ignored_dns_prefixes := []
    dns := fun _ => none }

/-- The Finding Stage 2 emits for `rule1` in `pkg4`. -/
def fRule : BadEntry Entry :=
  ⟨rule1, ruleUsageText "dg1" "SecurityPreRules" "rule1" "Source" ["bad.example"],
   "dg1", "SecurityPreRules"⟩

/-- Witness for C4: in `pkg4` the enabled `rule1` is flagged, and the
theorem applies to its Finding; the disabled `rule2`, with the same bad
references, yields no Finding at all. -/
theorem disabled_policy_never_flagged_witness :
    (fRule ∈ find_badhostnameusage pkg4 ∧
      (fRule.entry_type = "SecurityPreRules" ∨ fRule.entry_type = "SecurityPostRules")) ∧
    ¬ fRule.data.disabled = some "yes" :=
  ⟨⟨by decide, Or.inl rfl⟩,
   disabled_policy_never_flagged pkg4 fRule (by decide) (Or.inl rfl)⟩

/-! ### C10: rules are scanned from the exclusive collections only -/

/-- The slots (scope, ruletype) at which the rule entry `R` occurs in the
snapshot's EXCLUSIVE rule collections, one slot per occurrence.  For a rule
declared in exactly one scope and inherited elsewhere at the same identity,
the exclusive diff (cf. `exclusive_diff_by_uuid`) leaves exactly one
occurrence: the declaring scope's. -/
def ruleOccurrences (pkg : ProfilePackage) (R : Entry) : List (String × String) :=
  pkg.device_groups.flatMap (fun dg =>
    ruleTypes.flatMap (fun rt =>
      ((exclusiveAt pkg dg rt).filter (fun e => decide (e = R))).map
        (fun _ => (dg, rt))))

/-- "Is a Stage 2 rule Finding whose subject is `R`". -/
def isRuleFindingFor (R : Entry) (f : BadEntry Entry) : Bool :=
  decide ((f.entry_type = "SecurityPreRules" ∨ f.entry_type = "SecurityPostRules") ∧
    f.data = R)

theorem flatMap_congr_left {α β : Type} {l : List α} {f g : α → List β}
    (h : ∀ a ∈ l, f a = g a) : l.flatMap f = l.flatMap g := by
  rw [List.flatMap_def, List.flatMap_def, List.map_congr_left h]

theorem filter_ruleEntryFindings {bad : List String} {dg rt : String} {e R : Entry}
    (hrt : rt ∈ ruleTypes) :
    (ruleEntryFindings bad dg rt e).filter (isRuleFindingFor R) =
      if e = R then ruleEntryFindings bad dg rt R else [] := by
  by_cases he : e = R
  · subst he
    rw [if_pos rfl]
    apply List.filter_eq_self.mpr
    intro f hf
    obtain ⟨hdata, hrt', _, _⟩ := mem_ruleEntryFindings hf
    unfold isRuleFindingFor
    rw [decide_eq_true_eq]
    refine ⟨?_, hdata⟩
    rw [hrt']
    simpa [ruleTypes] using hrt
  · rw [if_neg he]
    apply List.filter_eq_nil_iff.mpr
    intro f hf
    obtain ⟨hdata, _, _, _⟩ := mem_ruleEntryFindings hf
    unfold isRuleFindingFor
    rw [decide_eq_true_eq]
    rintro ⟨_, hdR⟩
    rw [hdata] at hdR
    exact he hdR

theorem ag_part_filter_nil (pkg : ProfilePackage) (bad : List String) (R : Entry) :
    (ag_part pkg bad).filter (isRuleFindingFor R) = [] := by
  apply List.filter_eq_nil_iff.mpr
  intro f hf
  have hag := (mem_ag_part hf).1
  unfold isRuleFindingFor
  rw [decide_eq_true_eq]
  rintro ⟨h1 | h1, _⟩ <;> rw [hag] at h1 <;> exact absurd h1 (by decide)

theorem ruleEntryFindings_length_le_two (bad : List String) (dg rt : String)
    (e : Entry) : (ruleEntryFindings bad dg rt e).length ≤ 2 := by
  unfold ruleEntryFindings
  by_cases hdis : e.disabled = some "yes"
  · simp [hdis]
  · rw [if_neg hdis]
    by_cases hs : interSorted bad e.source_members = [] <;>
      by_cases hd : interSorted bad e.destination_members = [] <;>
        simp [hs, hd]

/-- C10: Stage 2 reads security rules from the EXCLUSIVE collections and
address groups from the full collections.  Formally: (i) if the rule entry
`R` occurs at exactly one slot `(dg₀, rt₀)` of the exclusive rule
collections — as the identity-based exclusive diff guarantees for a rule
declared once and inherited elsewhere — then the rule Findings about `R`
across the whole run are exactly the Findings emitted at that single slot;
(ii) those are at most two, one per member-reference field (one possible
`Source` Finding and one possible `Dest` Finding, visible from
`ruleEntryFindings`); (iii) every AddressGroups Finding's subject comes from
a scope's full `devicegroup_objects` collection. -/
theorem rules_scanned_from_exclusive_only (pkg : ProfilePackage) (R : Entry)
    (dg₀ rt₀ : String) (hocc : ruleOccurrences pkg R = [(dg₀, rt₀)]) :
    (find_badhostnameusage pkg).filter (isRuleFindingFor R) =
      ruleEntryFindings (badNames pkg) dg₀ rt₀ R ∧
    (ruleEntryFindings (badNames pkg) dg₀ rt₀ R).length ≤ 2 ∧
    ∀ f ∈ find_badhostnameusage pkg, f.entry_type = "AddressGroups" →
      ∃ dg ∈ pkg.device_groups, f.data ∈ objectsAt pkg dg "AddressGroups" := by
  refine ⟨?_, ruleEntryFindings_length_le_two _ _ _ _, ?_⟩
  · have key : (rule_part pkg (badNames pkg)).filter (isRuleFindingFor R) =
        (ruleOccurrences pkg R).flatMap
          (fun pr => ruleEntryFindings (badNames pkg) pr.1 pr.2 R) := by
      unfold rule_part ruleOccurrences
      rw [filter_flatMap, List.flatMap_assoc]
      apply flatMap_congr_left
      intro dg _
      rw [filter_flatMap, List.flatMap_assoc]
      apply flatMap_congr_left
      intro rt hrt
      rw [filter_flatMap, List.flatMap_map]
      rw [flatMap_congr_left
        (g := fun e => if e = R then ruleEntryFindings (badNames pkg) dg rt R else [])
        (fun e _ => filter_ruleEntryFindings hrt)]
      exact flatMap_if_const _ _ _
    unfold find_badhostnameusage
    rw [List.filter_append, ag_part_filter_nil, key, hocc, List.nil_append,
      List.flatMap_singleton]
  · intro f hf hag
    unfold find_badhostnameusage at hf
    rcases List.mem_append.mp hf with h | h
    · exact (mem_ag_part h).2
    · unfold rule_part at h
      rcases List.mem_flatMap.mp h with ⟨dg, _, h2⟩
      rcases List.mem_flatMap.mp h2 with ⟨rt, hrt, h3⟩
      rcases List.mem_flatMap.mp h3 with ⟨e, _, h4⟩
      obtain ⟨_, hrt', _, _⟩ := mem_ruleEntryFindings h4
      rw [hag] at hrt'
      rcases (by simpa [ruleTypes] using hrt : rt = "SecurityPreRules" ∨
          rt = "SecurityPostRules") with h5 | h5 <;>
        rw [h5] at hrt' <;> exact absurd hrt' (by decide)

/-- Witness for C10 at `pkg4`: the enabled `rule1` occurs exactly once
across the exclusive rule collections, and the run's rule Findings about it
are exactly the single-slot Findings. -/
theorem rules_scanned_from_exclusive_only_witness :
    (ruleOccurrences pkg4 rule1 = [("dg1", "SecurityPreRules")]) ∧
    ((find_badhostnameusage pkg4).filter (isRuleFindingFor rule1) =
      ruleEntryFindings (badNames pkg4) "dg1" "SecurityPreRules" rule1 ∧
    (ruleEntryFindings (badNames pkg4) "dg1" "SecurityPreRules" rule1).length ≤ 2 ∧
    ∀ f ∈ find_badhostnameusage pkg4, f.entry_type = "AddressGroups" →
      ∃ dg ∈ pkg4.device_groups, f.data ∈ objectsAt pkg4 dg "AddressGroups") :=
  ⟨by decide,
   rules_scanned_from_exclusive_only pkg4 rule1 "dg1" "SecurityPreRules" (by decide)⟩

/-! ### C9: the text report format -/

theorem join_data (l : List String) :
    (String.join l).data = (l.map String.data).flatten := by
  have gen : ∀ (l : List String) (acc : String),
      (l.foldl (fun r s => r ++ s) acc).data = acc.data ++ (l.map String.data).flatten := by
    intro l
    induction l with
    | nil => intro acc; simp
    | cons s ss ih =>
        intro acc
        simp only [List.foldl_cons, List.map_cons, List.flatten_cons]
        rw [ih (acc ++ s), String.data_append, List.append_assoc]
  rw [String.join, gen]
  rfl

theorem sum_map_one {α : Type} (l : List α) :
    (l.map (fun _ => (1 : Nat))).sum = l.length := by
  induction l with
  | nil => rfl
  | cons a as ih => simp [ih, Nat.add_comm]

theorem reportChunks_eq_lines {α : Type}
    (problems : List ((String × String) × List (BadEntry α))) :
    reportChunks problems = (report_lines problems).map (fun l => l ++ "\n") := by
  unfold reportChunks report_lines
  rw [List.map_flatMap]
  apply flatMap_congr_left
  intro item _
  rw [List.map_append, List.map_append, List.map_map]
  rfl

/-- C9: in the text report, each validator is rendered as a header line
naming the validator and the exact count of its Findings followed by one
line of text per Finding (see `report_lines` for the line layout the spec
describes): the rendered output is precisely the newline-join of
`report_lines`, and the findings segment of each validator contains exactly
one newline — one line — per Finding, matching the count in the header.
The hypothesis states that Finding texts are single lines of text, the
rendering contract §6 fixes for them. -/
theorem report_one_line_per_finding {α : Type}
    (problems : List ((String × String) × List (BadEntry α)))
    (h : ∀ item ∈ problems, ∀ p ∈ item.2, '\n' ∉ p.text.data) :
    write_validator_output problems "text" =
      Except.ok (String.join ((report_lines problems).map (fun l => l ++ "\n"))) ∧
    ∀ item ∈ problems,
      (String.join (item.2.map (fun p => p.text ++ "\n"))).data.count '\n' =
        item.2.length := by
  constructor
  · unfold write_validator_output
    rw [if_neg (by decide)]
    rw [reportChunks_eq_lines]
  · intro item hitem
    rw [join_data, List.map_map, List.count_flatten, List.map_map]
    rw [List.map_congr_left (g := fun _ => (1 : Nat)) ?hone]
    case hone =>
      intro p hp
      have hnl : p.text.data.count '\n' = 0 :=
        List.count_eq_zero.mpr (h item hitem p hp)
      show ((p.text ++ "\n").data).count '\n' = 1
      rw [String.data_append, List.count_append, hnl]
      rfl
    exact sum_map_one item.2

/-- A two-validator report used as the C9 witness. -/
def problems9 : List ((String × String) × List (BadEntry Entry)) :=
  [(("BadHostname", "Address contains a hostname that doesn't resolve"),
    [⟨e5, badHostnameText "dg1" "x" "a.example", "dg1", "Addresses"⟩,
     ⟨e5, badHostnameText "dg1" "x" "b.example", "dg1", "Addresses"⟩]),
   (("DisabledPolicies", "Policy objects that are disabled"), [])]

/-- Witness for C9 at the concrete report `problems9`. -/
theorem report_one_line_per_finding_witness :
    (∀ item ∈ problems9, ∀ p ∈ item.2, '\n' ∉ p.text.data) ∧
    (write_validator_output problems9 "text" =
      Except.ok (String.join ((report_lines problems9).map (fun l => l ++ "\n"))) ∧
    ∀ item ∈ problems9,
      (String.join (item.2.map (fun p => p.text ++ "\n"))).data.count '\n' =
        item.2.length) :=
  ⟨by decide, report_one_line_per_finding problems9 (by decide)⟩

end PanAnalyzer
